import Mathlib

/-!
# Verification of the YAK RTOS kernel (shallow embedding)

This file embeds the C sources of the YAK kernel (`yak_c.c`, `yak_help.c`,
`kernel.h`, `user.h`) into Lean and proves properties of the embedded code.

Modelling conventions:
* TCB storage is a heap `Nat → TCB`; a C `TCBPtr` is an `Option Nat`
  (`none` is `NULL`).  Dereferencing `none` (a read or a write through a
  null pointer, undefined behaviour in C) is an `Except.error`.
* `printString` diagnostics are appended to a log inside the kernel state.
* Machine integers: `delayCount`, `taskID` and the semaphore value are C
  `int` (modelled as `Int`); queue occupancy and capacity are 16-bit
  `unsigned` (modelled as `Nat` with arithmetic mod 2^16); priorities are
  `unsigned char` (modelled as `Nat`).
* The state carries one semaphore and one queue: the semaphore/queue a
  kernel call operates on.  Quantifying over that record is quantifying
  over all semaphores/queues, since each call touches only the one it is
  passed.
* C `while` loops become fuel-indexed recursions; running out of fuel is a
  distinguished error that never occurs in the proofs below.
-/

/-- Error message used when the embedded C code dereferences a null pointer. -/
def nullPtrMsg : String := "null pointer dereference"

/-- Error message used when a loop embedding runs out of fuel. -/
def fuelMsg : String := "out of fuel"

/-- Task control block, from `kernel.h` (`struct taskStruct`). -/
structure TCB where
  sp : Int
  stackBottom : Int
  taskID : Int
  delayCount : Int
  priority : Nat
  next : Option Nat
  prev : Option Nat
deriving Repr, DecidableEq

/-- The all-zero TCB: C global arrays are zero-initialized. -/
def TCB.zero : TCB := ⟨0, 0, 0, 0, 0, none, none⟩

/-- Semaphore, from `kernel.h` (`struct semaphoreStruct`). -/
structure YKSEM where
  value : Int
  pendHead : Option Nat
deriving Repr, DecidableEq

/-- Message queue, from `kernel.h` (`struct queueStruct`).  The slot
pointers `nextSlot`/`nextMsg` are indices into the caller-provided buffer
(`start` is index 0, `end` is index `maxEntries - 1`). -/
structure YKQ where
  numEntries : Nat
  maxEntries : Nat
  buffer : List Nat
  nextSlot : Nat
  nextMsg : Nat
  pendHead : Option Nat
deriving Repr, DecidableEq

/-- The kernel globals of `yak_c.c`, plus the TCB heap, the static locals
(`numTasksCreated` of `allocateTCB`, `taskIDCount` of `YKNewTask`), the
interrupt-enable flag manipulated by `YKEnterMutex`/`YKExitMutex`, the
target semaphore and queue, a memory for the stack words written by
`YKNewTask` and by the dispatcher's register saves, the live machine stack
pointer `cpuSP` used by the dispatcher, and the diagnostic log written by
`printString`. -/
structure KState where
  heap : Nat → TCB
  readyHead : Option Nat
  readyTail : Option Nat
  delayedHead : Option Nat
  delayedTail : Option Nat
  currentTask : Option Nat
  ctxSwCount : Int
  tickNum : Int
  idleCount : Int
  nestLevel : Int
  startedFlag : Bool
  intEnabled : Bool
  numTasksCreated : Nat
  taskIDCount : Int
  sem : YKSEM
  queue : YKQ
  stackMem : Int → Int
  cpuSP : Int
  log : List String

/-- Point update of the TCB heap. -/
def hupd (h : Nat → TCB) (a : Nat) (t : TCB) : Nat → TCB :=
  fun x => if x = a then t else h x

/-- Dereference a pointer: `NULL` is an error. -/
def deref (p : Option Nat) : Except String Nat :=
  match p with
  | none => Except.error nullPtrMsg
  | some a => Except.ok a

/-- Write through a pointer: mutate the pointed-to TCB. -/
def setTCB (s : KState) (p : Option Nat) (f : TCB → TCB) : Except String KState :=
  match p with
  | none => Except.error nullPtrMsg
  | some a => Except.ok { s with heap := hupd s.heap a (f (s.heap a)) }

/-- Embedding of `printString` from `clib`: appends the message to the diagnostic log. -/
def printString (s : KState) (m : String) : KState :=
  { s with log := s.log ++ [m] }

/-! ## List machinery (`yak_help.c`) -/

/-- The walk of `insertReady` case 2.3:
`while (curTCB->priority < newTCB->priority) curTCB = curTCB->next;`.
Each iteration dereferences `curTCB`, so reaching `NULL` is an error. -/
def readyWalk (h : Nat → TCB) (prio : Nat) : Option Nat → Nat → Except String Nat
  | _, 0 => Except.error fuelMsg
  | p, Nat.succ fuel => do
      let a ← deref p
      if (h a).priority < prio then readyWalk h prio (h a).next fuel
      else pure a

/-- Embedding of `insertReady` from `yak_help.c`. -/
def insertReady (s : KState) (newTCB : Option Nat) (fuel : Nat) : Except String KState :=
  match newTCB with
  | none => Except.ok (printString s "ERROR in insertReady(): cannot insert NULL pointer.")
  | some n =>
    match s.readyHead with
    | none => do
        -- Case 1: no tasks already in queue
        let s := { s with readyHead := some n, readyTail := some n }
        let s ← setTCB s (some n) (fun t => { t with prev := none })
        let s ← setTCB s (some n) (fun t => { t with next := none })
        pure s
    | some hd =>
      if (s.heap n).priority < (s.heap hd).priority then do
        -- Case 2.1: new task is highest priority
        let s ← setTCB s (some hd) (fun t => { t with prev := some n })
        let s ← setTCB s (some n) (fun t => { t with next := some hd })
        let s ← setTCB s (some n) (fun t => { t with prev := none })
        pure { s with readyHead := some n }
      else do
        let tl ← deref s.readyTail
        if (s.heap n).priority > (s.heap tl).priority then do
          -- Case 2.2: new task is lowest priority
          let s := printString s
            "ERROR in insertReady(): New task priority should not be lowest in ready queue!"
          let s ← setTCB s (some tl) (fun t => { t with next := some n })
          let s ← setTCB s (some n) (fun t => { t with prev := some tl })
          let s ← setTCB s (some n) (fun t => { t with next := none })
          pure { s with readyTail := some n }
        else do
          -- Case 2.3: new task is in the middle; place newTCB before curTCB
          let cur ← readyWalk s.heap (s.heap n).priority s.readyHead fuel
          let prv := (s.heap cur).prev
          let s ← setTCB s prv (fun t => { t with next := some n })
          let s ← setTCB s (some n) (fun t => { t with prev := prv })
          let s ← setTCB s (some cur) (fun t => { t with prev := some n })
          let s ← setTCB s (some n) (fun t => { t with next := some cur })
          pure s

/-- Embedding of `removeReady` from `yak_help.c`. -/
def removeReady (s : KState) (remTask : Option Nat) : Except String KState := do
  -- the first test reads remTask->taskID, a dereference of remTask
  let r ← deref remTask
  if (s.heap r).taskID = 0 then
    -- IDLE_TASK_ID = 0
    pure (printString s "ERROR in removeReady(): Cannot remove IDLE task from ready list!")
  else
    match s.readyHead with
    | none => pure (printString s "ERROR in removeReady(): Trying to remove from an empty list.")
    | some _ =>
      if s.readyHead = remTask ∧ s.readyTail = remTask then do
        -- Case 2: only task in the list
        let s := { s with readyHead := none, readyTail := none }
        let s ← setTCB s remTask (fun t => { t with prev := none })
        let s ← setTCB s remTask (fun t => { t with next := none })
        pure s
      else if s.readyHead = remTask then do
        -- Case 3: remTask is the head but not tail
        let nx := (s.heap r).next
        let s := { s with readyHead := nx }
        let s ← setTCB s nx (fun t => { t with prev := none })
        let s ← setTCB s remTask (fun t => { t with next := none })
        pure s
      else if s.readyTail = remTask then do
        -- Case 4: remTask is the tail but not head
        let pv := (s.heap r).prev
        let s := { s with readyTail := pv }
        let s ← setTCB s pv (fun t => { t with next := none })
        let s ← setTCB s remTask (fun t => { t with prev := none })
        pure s
      else do
        -- Case 5: remTask is neither head nor tail
        let nx := (s.heap r).next
        let pv := (s.heap r).prev
        let s ← setTCB s nx (fun t => { t with prev := pv })
        let s ← setTCB s pv (fun t => { t with next := nx })
        let s ← setTCB s remTask (fun t => { t with next := none })
        let s ← setTCB s remTask (fun t => { t with prev := none })
        pure s

/-- The walk of `insertDelayed` case 2.3:
`while ((newTCB->delayCount >= curTCB->delayCount) && (curTCB != NULL))`.
The condition evaluates `curTCB->delayCount` BEFORE the null test, so the
walk dereferences `curTCB` on every iteration and errors when it reaches
`NULL`; consequently a normal exit always has `curTCB != NULL`, and the
`curTCB == NULL` append-at-tail branch of the source is unreachable except
through that undefined behaviour.  Returns the updated `newTCB->delayCount`
together with the (non-null) stopping node. -/
def delayedWalk (h : Nat → TCB) : Int → Option Nat → Nat → Except String (Int × Nat)
  | _, _, 0 => Except.error fuelMsg
  | d, p, Nat.succ fuel => do
      let a ← deref p
      if d ≥ (h a).delayCount then delayedWalk h (d - (h a).delayCount) (h a).next fuel
      else pure (d, a)

/-- Embedding of `insertDelayed` from `yak_help.c`. -/
def insertDelayed (s : KState) (newTCB : Option Nat) (fuel : Nat) : Except String KState :=
  match newTCB with
  | none => Except.ok (printString s "ERROR in insertDelayed(): cannot insert NULL pointer.")
  | some n =>
    if (s.heap n).taskID = 0 then
      Except.ok (printString s "ERROR in insertDelayed(): Cannot delay IDLE task!")
    else
      match s.delayedHead with
      | none => do
          -- Case 1: no tasks already in queue
          let s := { s with delayedHead := some n, delayedTail := some n }
          let s ← setTCB s (some n) (fun t => { t with prev := none })
          let s ← setTCB s (some n) (fun t => { t with next := none })
          pure s
      | some hd =>
        if (s.heap n).delayCount < (s.heap hd).delayCount then do
          -- Case 2.1: new task is smallest delay
          let s ← setTCB s (some hd)
            (fun t => { t with delayCount := t.delayCount - (s.heap n).delayCount })
          let s ← setTCB s (some hd) (fun t => { t with prev := some n })
          let s ← setTCB s (some n) (fun t => { t with next := some hd })
          let s ← setTCB s (some n) (fun t => { t with prev := none })
          pure { s with delayedHead := some n }
        else do
          -- Case 2.3: walk, updating newTCB->delayCount
          let (d, cur) ← delayedWalk s.heap (s.heap n).delayCount s.delayedHead fuel
          let s ← setTCB s (some n) (fun t => { t with delayCount := d })
          -- place task in list middle, before curTCB
          let prv := (s.heap cur).prev
          let s ← setTCB s prv (fun t => { t with next := some n })
          let s ← setTCB s (some n) (fun t => { t with prev := prv })
          let s ← setTCB s (some cur) (fun t => { t with prev := some n })
          let s ← setTCB s (some n) (fun t => { t with next := some cur })
          -- newTCB->next->delayCount -= newTCB->delayCount
          let s ← setTCB s (some cur) (fun t => { t with delayCount := t.delayCount - d })
          pure s

/-- Embedding of `removeDelayed` from `yak_help.c`.  Note: after unlinking, the source
assigns `YKDelayedHead->prev = NULL` without checking the new head for
`NULL`, and never updates `YKDelayedTail`. -/
def removeDelayed (s : KState) : Except String (Option Nat × KState) :=
  match s.delayedHead with
  | none => Except.ok (none, s)
  | some hd =>
    if (s.heap hd).delayCount = 0 then do
      let newHead := (s.heap hd).next
      let s := { s with delayedHead := newHead }
      let s ← setTCB s newHead (fun t => { t with prev := none })
      let s ← setTCB s (some hd) (fun t => { t with next := none })
      pure (some hd, s)
    else Except.ok (none, s)

/-- The walk shared by `insertPendSem` and `insertPendQ`:
`while (curTCB->priority < newTCB->priority) { if (curTCB->next == NULL) break; else curTCB = curTCB->next; }`.
The cursor starts non-null and never advances onto `NULL`. -/
def pendWalk (h : Nat → TCB) (prio : Nat) : Nat → Nat → Except String Nat
  | _, 0 => Except.error fuelMsg
  | a, Nat.succ fuel =>
      if (h a).priority < prio then
        match (h a).next with
        | none => Except.ok a
        | some b => pendWalk h prio b fuel
      else Except.ok a

/-- Body shared verbatim by `insertPendSem` and `insertPendQ` in
`yak_help.c` (the two functions are textually identical up to the struct
holding `pendHead`).  Takes and returns the `pendHead` field. -/
def insertPendCore (s : KState) (pendHead : Option Nat) (newTCB : Option Nat)
    (fuel : Nat) (errMsg : String) : Except String (Option Nat × KState) :=
  match newTCB with
  | none => Except.ok (pendHead, printString s errMsg)
  | some n =>
    match pendHead with
    | none => do
        -- Case 1: no tasks already pending
        let s ← setTCB s (some n) (fun t => { t with prev := none })
        let s ← setTCB s (some n) (fun t => { t with next := none })
        pure (some n, s)
    | some hd =>
      if (s.heap n).priority < (s.heap hd).priority then do
        -- Case 2.1: new task is highest priority
        let s ← setTCB s (some hd) (fun t => { t with prev := some n })
        let s ← setTCB s (some n) (fun t => { t with next := some hd })
        let s ← setTCB s (some n) (fun t => { t with prev := none })
        pure (some n, s)
      else do
        -- Case 2.2: walk for the insertion point
        let cur ← pendWalk s.heap (s.heap n).priority hd fuel
        if (s.heap cur).next = none ∧ (s.heap n).priority > (s.heap cur).priority then do
          -- special handling if curTCB is the last in the list
          let s ← setTCB s (some cur) (fun t => { t with next := some n })
          let s ← setTCB s (some n) (fun t => { t with prev := some cur })
          let s ← setTCB s (some n) (fun t => { t with next := none })
          pure (pendHead, s)
        else do
          -- place task before curTCB
          let prv := (s.heap cur).prev
          let s ← setTCB s prv (fun t => { t with next := some n })
          let s ← setTCB s (some n) (fun t => { t with prev := prv })
          let s ← setTCB s (some cur) (fun t => { t with prev := some n })
          let s ← setTCB s (some n) (fun t => { t with next := some cur })
          pure (pendHead, s)

/-- Embedding of `insertPendSem` from `yak_help.c`. -/
def insertPendSem (s : KState) (newTCB : Option Nat) (fuel : Nat) : Except String KState := do
  let (ph, s) ← insertPendCore s s.sem.pendHead newTCB fuel
    "ERROR in insertPendSem(): cannot insert NULL pointer."
  pure { s with sem := { s.sem with pendHead := ph } }

/-- Embedding of `insertPendQ` from `yak_help.c`. -/
def insertPendQ (s : KState) (newTCB : Option Nat) (fuel : Nat) : Except String KState := do
  let (ph, s) ← insertPendCore s s.queue.pendHead newTCB fuel
    "ERROR in insertPendQ(): cannot insert NULL pointer."
  pure { s with queue := { s.queue with pendHead := ph } }

/-- Body shared verbatim by `removePendSem` and `removePendQ` in
`yak_help.c`.  Returns `(tmp, new pendHead, state)`.  Note: after
`ptr->pendHead = ptr->pendHead->next`, the source assigns
`ptr->pendHead->prev = NULL` without checking the new head for `NULL`. -/
def removePendCore (s : KState) (pendHead : Option Nat) :
    Except String (Option Nat × Option Nat × KState) :=
  match pendHead with
  | none => Except.ok (none, pendHead, s)
  | some hd => do
      let newPh := (s.heap hd).next
      let s ← setTCB s newPh (fun t => { t with prev := none })
      let s ← setTCB s (some hd) (fun t => { t with next := none })
      pure (some hd, newPh, s)

/-- Embedding of `removePendSem` from `yak_help.c`. -/
def removePendSem (s : KState) : Except String (Option Nat × KState) := do
  let (tmp, ph, s) ← removePendCore s s.sem.pendHead
  pure (tmp, { s with sem := { s.sem with pendHead := ph } })

/-- Embedding of `removePendQ` from `yak_help.c`. -/
def removePendQ (s : KState) : Except String (Option Nat × KState) := do
  let (tmp, ph, s) ← removePendCore s s.queue.pendHead
  pure (tmp, { s with queue := { s.queue with pendHead := ph } })

/-- Embedding of `allocateTCB` from `yak_help.c`: returns `&YKTasks[numTasksCreated++]`;
we let the heap address of `YKTasks[i]` be `i`.  `MAX_TASKS + 1 = 65`. -/
def allocateTCB (s : KState) : Nat × KState :=
  let s := if s.numTasksCreated ≥ 65 then
      printString s "ERROR in allocateTCB(): storage space exceeded." else s
  (s.numTasksCreated, { s with numTasksCreated := s.numTasksCreated + 1 })

/-! ## Kernel functions (`yak_c.c`) -/

/-- Embedding of `YKEnterMutex` (assembly shim): returns the prior interrupt-enable
state and disables interrupts. -/
def YKEnterMutex (s : KState) : Bool × KState :=
  (s.intEnabled, { s with intEnabled := false })

/-- Embedding of `YKExitMutex` (assembly shim): enables interrupts. -/
def YKExitMutex (s : KState) : KState :=
  { s with intEnabled := true }

/-- Modelled from the spec: `YKDispatcher` is implemented in assembly and
is missing from the C sources.  Per the dispatcher contract (spec sections
4.3 and 6) it, in order: saves the full register set of the currently
running task onto that task's stack — `CONTEXT_SIZE = 13` words pushed
below the live machine stack pointer `cpuSP`; the registers' contents are
CPU state outside this model and are recorded as 0 — then records the new
(decremented) stack pointer into `current_task->sp` (a write through the
current-task pointer), sets `current_task` to the ready-list head, loads
that task's saved stack pointer and pops its register set, which moves the
machine stack pointer up by the context size and moves only machine
registers otherwise. -/
def YKDispatcher (s : KState) : Except String KState := do
  let newSP := s.cpuSP - 13
  let oldSP := s.cpuSP
  let s := { s with stackMem := fun x =>
      if newSP ≤ x ∧ x < oldSP then 0 else s.stackMem x }
  let s ← setTCB s s.currentTask (fun t => { t with sp := newSP })
  let s := { s with currentTask := s.readyHead }
  let inc ← deref s.currentTask
  pure { s with cpuSP := (s.heap inc).sp + 13 }

/-- Embedding of `YKScheduler` from `yak_c.c`.  Reads `YKReadyHead->taskID` and
`YKCurrentTask->taskID`, a dereference of both pointers. -/
def YKScheduler (s : KState) : Except String KState := do
  let (iStatus, s) := YKEnterMutex s
  let rh ← deref s.readyHead
  let ct ← deref s.currentTask
  let s ←
    if (s.heap rh).taskID ≠ (s.heap ct).taskID then
      YKDispatcher { s with ctxSwCount := s.ctxSwCount + 1 }
    else pure s
  pure (if iStatus then YKExitMutex s else s)

/-- Embedding of `YKEnterISR` from `yak_c.c`. -/
def YKEnterISR (s : KState) : KState :=
  { s with nestLevel := s.nestLevel + 1 }

/-- Embedding of `YKExitISR` from `yak_c.c`. -/
def YKExitISR (s : KState) : Except String KState := do
  let s := { s with nestLevel := s.nestLevel - 1 }
  if s.nestLevel = 0 then YKScheduler s else pure s

/-- Conversion of a C 16-bit `unsigned` value to `int`, used where the
source assigns an `unsigned` to an `int` field. -/
def toInt16 (n : Nat) : Int :=
  if n % 65536 < 32768 then ((n % 65536 : Nat) : Int)
  else ((n % 65536 : Nat) : Int) - 65536

/-- Base address of `YKIdleStack` (a 256-word array) in the stack memory. -/
def idleStackBase : Int := 10000

/-- The address value of the `YKIdleTask` code pointer. -/
def idleTaskCode : Int := 1

/-- Embedding of `YKNewTask` from `yak_c.c`.  `taskCode` is the code-pointer value cast
to `int`; `taskStack` is the stack-top address in word units
(`CONTEXT_SIZE = 13`, `DEFAULT_FLAGS = 0x0200`). -/
def YKNewTask (s : KState) (taskCode : Int) (taskStack : Int) (taskPriority : Nat)
    (fuel : Nat) : Except String KState := do
  let (iStatus, s) := YKEnterMutex s
  let (a, s) := allocateTCB s
  let s ← setTCB s (some a) (fun t => { t with stackBottom := taskStack - 1 })
  let s ← setTCB s (some a) (fun t => { t with taskID := s.taskIDCount })
  let s := { s with taskIDCount := s.taskIDCount + 1 }
  let s ← setTCB s (some a) (fun t => { t with delayCount := 0 })
  let s ← setTCB s (some a) (fun t => { t with priority := taskPriority })
  let s ← setTCB s (some a) (fun t => { t with next := none })
  let s ← setTCB s (some a) (fun t => { t with prev := none })
  let s ← setTCB s (some a) (fun t => { t with sp := (taskStack - 1) - 12 })
  let pokes : List (Int × Int) :=
    [(1, 512), (2, 0), (3, taskCode), (4, 1), (5, 2), (6, 3), (7, 4),
     (8, taskStack), (9, 0), (10, 0), (11, 0), (12, 0), (13, 0)]
  let s := pokes.foldl (fun s kv =>
    { s with stackMem := fun x => if x = taskStack - kv.1 then kv.2 else s.stackMem x }) s
  let s ← insertReady s (some a) fuel
  let s := if iStatus then YKExitMutex s else s
  if s.startedFlag then YKScheduler s else pure s

/-- Embedding of `YKInitialize` from `yak_c.c`.  `static TCBPtr dummyTask;` declares a
zero-initialized static POINTER that is never pointed at any storage: it
is `NULL`, and every `dummyTask->field = ...` assignment below writes
through that null pointer. -/
def YKInitialize (s : KState) (fuel : Nat) : Except String KState := do
  let dummyTask : Option Nat := none
  let (_, s) := YKEnterMutex s
  let s ← YKNewTask s idleTaskCode (idleStackBase + 255) 100 fuel
  let s ← setTCB s dummyTask (fun t => { t with sp := 0 })
  let s ← setTCB s dummyTask (fun t => { t with stackBottom := 0 })
  let s ← setTCB s dummyTask (fun t => { t with taskID := -1 })
  let s ← setTCB s dummyTask (fun t => { t with delayCount := 0 })
  let s ← setTCB s dummyTask (fun t => { t with priority := 100 })
  let s ← setTCB s dummyTask (fun t => { t with next := none })
  let s ← setTCB s dummyTask (fun t => { t with prev := none })
  pure { s with currentTask := dummyTask }

/-- Embedding of `YKRun` from `yak_c.c`. -/
def YKRun (s : KState) : Except String KState := do
  let s := { s with startedFlag := true }
  let s := YKExitMutex s
  let s ← YKScheduler s
  pure (printString s "ERROR in YKRun(): function should not return!")

/-- Embedding of `YKDelayTask` from `yak_c.c`.  `count` is `unsigned`, so the
`count <= 0` test only fires for `count = 0`; note the source prints the
error and then performs the delay anyway. -/
def YKDelayTask (s : KState) (count : Nat) (fuel : Nat) : Except String KState := do
  let (iStatus, s) := YKEnterMutex s
  let s := if count ≤ 0 then
      printString s "ERROR in YKDelayTask(): invalid delay count." else s
  let s ← removeReady s s.currentTask
  let s ← setTCB s s.currentTask (fun t => { t with delayCount := toInt16 count })
  let s ← insertDelayed s s.currentTask fuel
  let s := if iStatus then YKExitMutex s else s
  YKScheduler s

/-- Embedding of `YKSemPend` from `yak_c.c`. -/
def YKSemPend (s : KState) (fuel : Nat) : Except String KState := do
  let (iStatus, s) := YKEnterMutex s
  let oldVal := s.sem.value
  let s := { s with sem := { s.sem with value := s.sem.value - 1 } }
  let s ←
    if oldVal ≤ 0 then do
      let s ← removeReady s s.currentTask
      let s ← insertPendSem s s.currentTask fuel
      YKScheduler s
    else pure s
  pure (if iStatus then YKExitMutex s else s)

/-- Embedding of `YKSemPost` from `yak_c.c`. -/
def YKSemPost (s : KState) (fuel : Nat) : Except String KState := do
  let (iStatus, s) := YKEnterMutex s
  let oldVal := s.sem.value
  let s := { s with sem := { s.sem with value := s.sem.value + 1 } }
  let s ←
    if oldVal < 0 then do
      let (tmp, s) ← removePendSem s
      let s ← insertReady s tmp fuel
      if s.nestLevel = 0 then YKScheduler s else pure s
    else pure s
  pure (if iStatus then YKExitMutex s else s)

/-- Embedding of `YKQPend` from `yak_c.c`.  Returns the message (the slot value read)
and the new state. -/
def YKQPend (s : KState) (fuel : Nat) : Except String (Nat × KState) := do
  let (iStatus, s) := YKEnterMutex s
  let s ←
    if s.queue.numEntries = 0 then do
      let s ← removeReady s s.currentTask
      let s ← insertPendQ s s.currentTask fuel
      YKScheduler s
    else pure s
  let msg := s.queue.buffer.getD s.queue.nextMsg 0
  let s := { s with queue := { s.queue with
      nextMsg := if s.queue.nextMsg = s.queue.maxEntries - 1 then 0
                 else s.queue.nextMsg + 1 } }
  let s := { s with queue := { s.queue with
      numEntries := (s.queue.numEntries + 65535) % 65536 } }
  let s := if iStatus then YKExitMutex s else s
  pure (msg, s)

/-- Embedding of `YKQPost` from `yak_c.c`.  Returns the `int` result (1 = placed,
0 = queue full) and the new state. -/
def YKQPost (s : KState) (msg : Nat) (fuel : Nat) : Except String (Int × KState) := do
  let (iStatus, s) := YKEnterMutex s
  if s.queue.numEntries ≥ s.queue.maxEntries then
    pure (0, if iStatus then YKExitMutex s else s)
  else do
    let s := { s with queue := { s.queue with
        buffer := s.queue.buffer.set s.queue.nextSlot msg } }
    let s := { s with queue := { s.queue with
        nextSlot := if s.queue.nextSlot = s.queue.maxEntries - 1 then 0
                    else s.queue.nextSlot + 1 } }
    let s := { s with queue := { s.queue with
        numEntries := (s.queue.numEntries + 1) % 65536 } }
    let s ←
      if s.queue.pendHead ≠ none then do
        let (tmp, s) ← removePendQ s
        let s ← insertReady s tmp fuel
        if s.nestLevel = 0 then YKScheduler s else pure s
      else pure s
    pure (1, if iStatus then YKExitMutex s else s)

/-! ## Scenario states -/

/-- A TCB with given id, priority, delay count and links (stack fields 0). -/
def mkTCB (id : Int) (prio : Nat) (dc : Int) (nx pv : Option Nat) : TCB :=
  ⟨0, 0, id, dc, prio, nx, pv⟩

/-- The all-zero kernel state: C globals are zero-initialized and
interrupts are on by default when `main` starts. -/
def baseState : KState where
  heap := fun _ => TCB.zero
  readyHead := none
  readyTail := none
  delayedHead := none
  delayedTail := none
  currentTask := none
  ctxSwCount := 0
  tickNum := 0
  idleCount := 0
  nestLevel := 0
  startedFlag := false
  intEnabled := true
  numTasksCreated := 0
  taskIDCount := 0
  sem := ⟨0, none⟩
  queue := ⟨0, 0, [], 0, 0, none⟩
  stackMem := fun _ => 0
  cpuSP := 0
  log := []

/-- C1 scenario.  Address 0 is the idle task (id 0, priority 100), address
1 is task L (id 1, priority 50).  L is running, the ready list is
`[L, idle]`, semaphore S was created with initial value 0. -/
def c1s : KState :=
  { baseState with
    heap := fun a =>
      if a = 0 then mkTCB 0 100 0 none (some 1)
      else if a = 1 then mkTCB 1 50 0 (some 0) none
      else TCB.zero
    readyHead := some 1
    readyTail := some 0
    currentTask := some 1
    startedFlag := true }

/-- C1 run: L calls `YKSemPend(S)` and blocks; an ISR then calls
`YKSemPost(S)` with L the only pender. -/
def c1run : Except String KState := do
  let s ← YKSemPend c1s 20
  let s := YKEnterISR s
  YKSemPost s 20

/-- C1 intermediate observation: after L's `YKSemPend(S)`, observe S's
value, S's pending list head, and the current task (now idle). -/
def c1mid : Except String (Int × Option Nat × Option Nat) :=
  match YKSemPend c1s 20 with
  | Except.ok s => Except.ok (s.sem.value, s.sem.pendHead, s.currentTask)
  | Except.error e => Except.error e

/-- C2 scenario.  Tasks A (address 1, priority 5), B (address 2, priority
6), C (address 3, priority 7) and idle (address 0, priority 100); ready
list `[A, B, C, idle]`, A running, delayed list empty. -/
def c2s : KState :=
  { baseState with
    heap := fun a =>
      if a = 0 then mkTCB 0 100 0 none (some 3)
      else if a = 1 then mkTCB 1 5 0 (some 2) none
      else if a = 2 then mkTCB 2 6 0 (some 3) (some 1)
      else if a = 3 then mkTCB 3 7 0 (some 0) (some 2)
      else TCB.zero
    readyHead := some 1
    readyTail := some 0
    currentTask := some 1
    startedFlag := true }

/-- C2 run: `delay_task(10)`, `delay_task(7)`, `delay_task(15)` called in
that order from highest-priority task down (the scheduler inside
`YKDelayTask` hands the CPU to the next task each time). -/
def c2run : Except String KState := do
  let s ← YKDelayTask c2s 10 20
  let s ← YKDelayTask s 7 20
  YKDelayTask s 15 20

/-- C2 intermediate observation: after `delay_task(10)` and
`delay_task(7)`, observe the delayed-list head and both delta delays
(head first). -/
def c2mid : Except String (Option Nat × Int × Option Nat × Int) := do
  let s ← YKDelayTask c2s 10 20
  let s ← YKDelayTask s 7 20
  pure (s.delayedHead, (s.heap 2).delayCount, (s.heap 2).next, (s.heap 1).delayCount)

/-- C3 scenario: queue of capacity 4, empty, no pender. -/
def c3s : KState :=
  { baseState with queue := ⟨0, 4, [0, 0, 0, 0], 0, 0, none⟩ }

/-- C3 run: post m1 = 11, m2 = 12, m3 = 13, then pend three times; observe
the three post results, the three messages, and the final occupancy. -/
def c3run : Except String ((Int × Int × Int) × (Nat × Nat × Nat) × Nat) := do
  let (r1, s) ← YKQPost c3s 11 20
  let (r2, s) ← YKQPost s 12 20
  let (r3, s) ← YKQPost s 13 20
  let (m1, s) ← YKQPend s 20
  let (m2, s) ← YKQPend s 20
  let (m3, s) ← YKQPend s 20
  pure ((r1, r2, r3), (m1, m2, m3), s.queue.numEntries)

/-- Post-then-pend on one queue, observing the post result, the pended
message, and the final occupancy. -/
def postThenPend (s : KState) (m : Nat) (fuel : Nat) :
    Except String (Int × Nat × Nat) := do
  let (r, s1) ← YKQPost s m fuel
  let (mm, s2) ← YKQPend s1 fuel
  pure (r, mm, s2.queue.numEntries)

/-- C5 scenario: task L (address 1, id 1, priority 50) running, ready list
`[L, idle]`, delayed list empty. -/
def c5s : KState :=
  { baseState with
    heap := fun a =>
      if a = 0 then mkTCB 0 100 0 none (some 1)
      else if a = 1 then mkTCB 1 50 0 (some 0) none
      else TCB.zero
    readyHead := some 1
    readyTail := some 0
    currentTask := some 1
    startedFlag := true }

/-- C5 counterexample observation: run `YKDelayTask(0)` on `c5s` and
observe the log, the delayed-list head, L's delay count, the ready-list
head, and the current task. -/
def c5obs : Except String (List String × Option Nat × Int × Option Nat × Option Nat) :=
  match YKDelayTask c5s 0 20 with
  | Except.ok s => Except.ok (s.log, s.delayedHead, (s.heap 1).delayCount,
      s.readyHead, s.currentTask)
  | Except.error e => Except.error e

/-- C6 scenario: ready list `[a, b, idle]` with a = address 1 (priority 3),
b = address 2 (priority 5), idle = address 0 (priority 100); the new task
t = address 3 has priority 5, equal to b, an existing non-head ready task. -/
def c6s : KState :=
  { baseState with
    heap := fun a =>
      if a = 0 then mkTCB 0 100 0 none (some 2)
      else if a = 1 then mkTCB 1 3 0 (some 2) none
      else if a = 2 then mkTCB 2 5 0 (some 0) (some 1)
      else if a = 3 then mkTCB 3 5 0 none none
      else TCB.zero
    readyHead := some 1
    readyTail := some 0 }

/-- C6 counterexample observation: insert the duplicate-priority task on
`c6s` and observe the log (empty means no violation was reported) and the
links showing the ordinary priority-ordered insertion of t before b. -/
def c6obs : Except String (List String × Option Nat × Option Nat × Option Nat × Option Nat) :=
  match insertReady c6s (some 3) 20 with
  | Except.ok s => Except.ok (s.log, (s.heap 1).next, (s.heap 3).prev,
      (s.heap 3).next, (s.heap 2).prev)
  | Except.error e => Except.error e

/-- C7 scenario: the delayed list holds exactly one task (address 1) whose
delta delay has reached zero. -/
def c7s : KState :=
  { baseState with
    heap := fun a => if a = 1 then mkTCB 1 50 0 none none else TCB.zero
    delayedHead := some 1
    delayedTail := some 1 }

/-- C8 scenario: queue of capacity 2, empty, with TWO tasks pending on it
(addresses 1 and 2, priorities 10 and 20); ready list `[idle]`, idle
running, inside an ISR (`nestLevel = 1`). -/
def c8s : KState :=
  { baseState with
    heap := fun a =>
      if a = 0 then mkTCB 0 100 0 none none
      else if a = 1 then mkTCB 1 10 0 (some 2) none
      else if a = 2 then mkTCB 2 20 0 none (some 1)
      else TCB.zero
    readyHead := some 0
    readyTail := some 0
    currentTask := some 0
    nestLevel := 1
    startedFlag := true
    queue := ⟨0, 2, [0, 0], 0, 0, some 1⟩ }

/-- C8 counterexample output state: `YKQPost` of message 7 on `c8s`. -/
def c8out : KState :=
  match YKQPost c8s 7 20 with
  | Except.ok (_, s) => s
  | Except.error _ => c8s

/-- C4 witness scenario: a full queue of capacity 2. -/
def c4s : KState :=
  { baseState with queue := ⟨2, 2, [5, 6], 0, 0, none⟩ }

/-- C8 witness scenario: an empty queue of capacity 2 with no pender. -/
def c8ws : KState :=
  { baseState with queue := ⟨0, 2, [0, 0], 0, 0, none⟩ }

/-- C8 witness output state: `YKQPost` of message 7 on `c8ws`. -/
def c8wOut : KState :=
  match YKQPost c8ws 7 20 with
  | Except.ok (_, s) => s
  | Except.error _ => c8ws

/-- C10 witness scenario: task 1 running and at the ready-list head. -/
def c10s : KState :=
  { baseState with
    heap := fun a =>
      if a = 0 then mkTCB 0 100 0 none (some 1)
      else if a = 1 then mkTCB 1 50 0 (some 0) none
      else TCB.zero
    readyHead := some 1
    readyTail := some 0
    currentTask := some 1
    startedFlag := true }

/-- C10 counterexample scenario: task 1 (saved sp 0) is the current task
but no longer the ready-list head (only the idle task, id 0, is ready);
the live machine stack pointer is 400. -/
def c10cs : KState :=
  { baseState with
    heap := fun a =>
      if a = 0 then mkTCB 0 100 0 none none
      else if a = 1 then mkTCB 1 50 0 none none
      else TCB.zero
    readyHead := some 0
    readyTail := some 0
    currentTask := some 1
    cpuSP := 400
    startedFlag := true }

/-- C10 counterexample observation: run the scheduler on `c10cs` and
observe the outgoing task's saved stack pointer, the machine stack
pointer, the current task, and the context-switch counter. -/
def c10obs : Except String (Int × Int × Option Nat × Int) :=
  match YKScheduler c10cs with
  | Except.ok s => Except.ok ((s.heap 1).sp, s.cpuSP, s.currentTask, s.ctxSwCount)
  | Except.error e => Except.error e

/-- Queue invariant of the claim: `0 ≤ occupancy ≤ capacity`, and
`occupancy > 0` implies the pending list is empty (occupancy is a `Nat`,
so `0 ≤ occupancy` is automatic). -/
def queueInv (s : KState) : Prop :=
  s.queue.numEntries ≤ s.queue.maxEntries ∧
    (0 < s.queue.numEntries → s.queue.pendHead = none)

instance (s : KState) : Decidable (queueInv s) := by
  unfold queueInv; infer_instance

/-! ## Basic lemmas -/

theorem hupd_same (h : Nat → TCB) (a : Nat) (t : TCB) : hupd h a t a = t := by
  simp [hupd]

theorem hupd_other (h : Nat → TCB) (a : Nat) (t : TCB) (x : Nat) (hx : x ≠ a) :
    hupd h a t x = h x := by
  simp [hupd, hx]

theorem bind_ok {α β : Type} (a : α) (f : α → Except String β) :
    (Except.ok a : Except String α) >>= f = f a := rfl

theorem bind_err {α β : Type} (e : String) (f : α → Except String β) :
    (Except.error e : Except String α) >>= f = Except.error e := rfl

theorem deref_some (a : Nat) : deref (some a) = Except.ok a := rfl

theorem deref_none : deref none = Except.error nullPtrMsg := rfl

theorem setTCB_some (s : KState) (a : Nat) (f : TCB → TCB) :
    setTCB s (some a) f = Except.ok { s with heap := hupd s.heap a (f (s.heap a)) } := rfl

theorem setTCB_none (s : KState) (f : TCB → TCB) :
    setTCB s none f = Except.error nullPtrMsg := rfl

theorem pure_eq_ok {α : Type} (a : α) : (pure a : Except String α) = Except.ok a := rfl

theorem bind_ok_inv {α β : Type} {x : Except String α} {f : α → Except String β} {b : β}
    (h : x >>= f = Except.ok b) : ∃ a, x = Except.ok a ∧ f a = Except.ok b := by
  cases x with
  | ok a => exact ⟨a, rfl, h⟩
  | error e => rw [bind_err] at h; exact Except.noConfusion h

theorem getD_set_self : ∀ (l : List Nat) (n a d : Nat), n < l.length →
    (l.set n a).getD n d = a
  | [], _, _, _, h => absurd h (by simp)
  | _ :: _, 0, _, _, _ => rfl
  | _ :: xs, n+1, a, d, h => getD_set_self xs n a d (by simpa using h)

/-! ## Claim theorems: concrete runs -/

/-- C1.  Semaphore handoff: with task L the only task pending on S
(`S.value = -1`, pending list `[L]`, as the intermediate observation
confirms), `YKSemPost` from an ISR does NOT complete the claimed handoff:
inside `removePendSem` the source sets `ptr->pendHead = ptr->pendHead->next`
(which is `NULL`, L being the last pender) and then writes
`ptr->pendHead->prev = NULL` through that null pointer. -/
theorem claim1_sem_handoff_null_deref :
    c1mid = Except.ok (-1, some 1, some 0) ∧ c1run = Except.error nullPtrMsg :=
  ⟨rfl, rfl⟩

/-- C2.  Delta encoding: the first two insertions produce the delta list
(7, 3) as claimed, but the third insertion (`delay_task(15)`, which must
append past the tail) does not produce (7, 3, 5): the walk condition of
`insertDelayed` evaluates `curTCB->delayCount` before its null test, so
after subtracting 7 and 3 the walk dereferences the null cursor. -/
theorem claim2_delta_insert_null_deref :
    c2mid = Except.ok (some 2, 7, some 1, 3) ∧ c2run = Except.error nullPtrMsg :=
  ⟨rfl, rfl⟩

/-- C7.  `removeDelayed` on a delayed list whose single task has delta
delay zero: the source unlinks the head, leaving `YKDelayedHead = NULL`,
and then writes `YKDelayedHead->prev = NULL` through that null pointer, so
no well-formed remainder list is produced when the popped task is the last
element. -/
theorem claim7_pop_expired_last_null_deref :
    removeDelayed c7s = Except.error nullPtrMsg := rfl

/-- C9.  `YKInitialize` on the zero-initialized kernel state: the idle
task is created, but `dummyTask` is a static NULL pointer that is never
pointed at storage, so the very first `dummyTask->sp = NULL` write
dereferences a null pointer and no current-task sentinel is established. -/
theorem claim9_initialize_null_deref :
    YKInitialize baseState 20 = Except.error nullPtrMsg := rfl

/-- C5 counterexample.  On `c5s` (delayed list empty, L running at the
ready-list head), `delay_task(0)` reports the error but does NOT skip the
operation: L is removed from the ready list (head becomes idle), its delay
count is set to 0, and it is inserted into the delayed list. -/
theorem claim5_counterexample :
    c5s.delayedHead = none ∧ c5s.readyHead = some 1 ∧
      c5obs = Except.ok (["ERROR in YKDelayTask(): invalid delay count."],
        some 1, 0, some 0, some 0) :=
  ⟨rfl, rfl, rfl⟩

/-- C6 counterexample.  Inserting task t (address 3, priority 5) into the
ready list `[a, b, idle]` where b (address 2) already has priority 5: the
log stays empty (no hard error is reported) and an ordinary
priority-ordered insertion is performed, linking a → t → b. -/
theorem claim6_counterexample :
    c6obs = Except.ok ([], some 3, some 1, some 2, some 3) := rfl

/-- C8 counterexample.  `c8s` satisfies the queue invariant (occupancy 0,
two tasks pending).  A completing `YKQPost` readies only the
highest-priority waiter, leaving occupancy 1 with task 2 still pending, so
the invariant `occupancy > 0 → pending list empty` does not survive the
call. -/
theorem claim8_counterexample :
    queueInv c8s ∧ YKQPost c8s 7 20 = Except.ok (1, c8out) ∧ ¬ queueInv c8out :=
  ⟨by decide, rfl, by decide⟩

/-! ## Queue lemmas -/

/-- A full queue: `YKQPost` returns 0 and the state is unchanged. -/
theorem qpost_full (s : KState) (m : Nat) (fuel : Nat)
    (hfull : s.queue.maxEntries ≤ s.queue.numEntries) :
    YKQPost s m fuel = Except.ok (0, s) := by
  cases hie : s.intEnabled <;>
  simp only [YKQPost, YKEnterMutex, YKExitMutex, ge_iff_le, hfull, hie, if_true, if_false,
    ite_true, ite_false, pure_eq_ok, Bool.false_eq_true] <;>
  first
    | rfl
    | rw [← hie]

/-- A non-full queue with no pender: `YKQPost` places the message and
returns 1. -/
theorem qpost_room_nopend (s : KState) (m : Nat) (fuel : Nat)
    (hroom : ¬ s.queue.maxEntries ≤ s.queue.numEntries)
    (hpend : s.queue.pendHead = none) :
    YKQPost s m fuel = Except.ok (1,
      { s with queue := { s.queue with
          numEntries := (s.queue.numEntries + 1) % 65536,
          buffer := s.queue.buffer.set s.queue.nextSlot m,
          nextSlot := if s.queue.nextSlot = s.queue.maxEntries - 1 then 0
                      else s.queue.nextSlot + 1 } }) := by
  cases hie : s.intEnabled <;>
  simp only [YKQPost, YKEnterMutex, YKExitMutex, ge_iff_le, hroom, hpend, hie, if_true,
    if_false, ite_true, ite_false, pure_eq_ok, Bool.false_eq_true, ne_eq,
    not_true_eq_false, not_false_eq_true] <;>
  rfl

/-- A non-empty queue: `YKQPend` returns the head message without blocking. -/
theorem qpend_nonempty (s : KState) (fuel : Nat)
    (hne : ¬ s.queue.numEntries = 0) :
    YKQPend s fuel = Except.ok (s.queue.buffer.getD s.queue.nextMsg 0,
      { s with queue := { s.queue with
          numEntries := (s.queue.numEntries + 65535) % 65536,
          nextMsg := if s.queue.nextMsg = s.queue.maxEntries - 1 then 0
                     else s.queue.nextMsg + 1 } }) := by
  cases hie : s.intEnabled <;>
  simp only [YKQPend, YKEnterMutex, YKExitMutex, hne, hie, if_true, if_false,
    ite_true, ite_false, pure_eq_ok, Bool.false_eq_true] <;>
  rfl

/-! ## Frame lemmas -/

/-- A completing `removePendQ` touches only the heap and the queue's
pending list: the queue's data fields are unchanged. -/
theorem removePendQ_qdata (s : KState) (tmp : Option Nat) (s2 : KState)
    (h : removePendQ s = Except.ok (tmp, s2)) :
    s2.queue.buffer = s.queue.buffer ∧ s2.queue.numEntries = s.queue.numEntries ∧
    s2.queue.nextSlot = s.queue.nextSlot ∧ s2.queue.nextMsg = s.queue.nextMsg ∧
    s2.queue.maxEntries = s.queue.maxEntries := by
  unfold removePendQ removePendCore at h
  cases hph : s.queue.pendHead with
  | none =>
      simp only [hph, bind_ok, pure_eq_ok, Except.ok.injEq, Prod.mk.injEq] at h
      rcases h with ⟨-, h⟩
      subst h
      exact ⟨rfl, rfl, rfl, rfl, rfl⟩
  | some hd =>
      simp only [hph] at h
      cases hnx : (s.heap hd).next with
      | none => simp only [hnx, setTCB_none, bind_err] at h; exact Except.noConfusion h
      | some nx =>
          simp only [hnx, setTCB_some, bind_ok, pure_eq_ok, Except.ok.injEq,
            Prod.mk.injEq] at h
          rcases h with ⟨-, h⟩
          subst h
          exact ⟨rfl, rfl, rfl, rfl, rfl⟩

/-- A completing `insertReady` touches only the heap, the ready-list
pointers and the log: semaphore and queue are unchanged. -/
theorem insertReady_ok_frame (s : KState) (t : Option Nat) (fuel : Nat) (s2 : KState)
    (h : insertReady s t fuel = Except.ok s2) :
    s2.queue = s.queue ∧ s2.sem = s.sem := by
  unfold insertReady at h
  cases t with
  | none =>
      simp only [Except.ok.injEq] at h
      subst h; exact ⟨rfl, rfl⟩
  | some n =>
      cases hrh : s.readyHead with
      | none =>
          simp only [hrh, setTCB_some, bind_ok, pure_eq_ok, Except.ok.injEq] at h
          subst h; exact ⟨rfl, rfl⟩
      | some hd =>
          simp only [hrh] at h
          by_cases h1 : (s.heap n).priority < (s.heap hd).priority
          · simp only [h1, if_true, ite_true, setTCB_some, bind_ok, pure_eq_ok,
              Except.ok.injEq] at h
            subst h; exact ⟨rfl, rfl⟩
          · simp only [h1, if_false, ite_false] at h
            cases hrt : s.readyTail with
            | none =>
                simp only [hrt, deref_none, bind_err] at h
                exact Except.noConfusion h
            | some tl =>
                simp only [hrt, deref_some, bind_ok] at h
                by_cases h2 : (s.heap n).priority > (s.heap tl).priority
                · simp only [h2, if_true, ite_true, printString, setTCB_some, bind_ok,
                    pure_eq_ok, Except.ok.injEq] at h
                  subst h; exact ⟨rfl, rfl⟩
                · simp only [h2, if_false, ite_false] at h
                  cases hw : readyWalk s.heap (s.heap n).priority (some hd) fuel with
                  | error e =>
                      rw [hw] at h
                      simp only [bind_err] at h
                      exact Except.noConfusion h
                  | ok cur =>
                      rw [hw] at h
                      simp only [bind_ok] at h
                      cases hp : (s.heap cur).prev with
                      | none =>
                          simp only [hp, setTCB_none, bind_err] at h
                          exact Except.noConfusion h
                      | some p =>
                          simp only [hp, setTCB_some, bind_ok, pure_eq_ok,
                            Except.ok.injEq] at h
                          subst h; exact ⟨rfl, rfl⟩

/-- A completing `YKScheduler` leaves semaphore and queue unchanged. -/
theorem scheduler_ok_frame (s : KState) (s2 : KState)
    (h : YKScheduler s = Except.ok s2) :
    s2.queue = s.queue ∧ s2.sem = s.sem := by
  unfold YKScheduler YKEnterMutex YKExitMutex YKDispatcher at h
  cases hrh : s.readyHead with
  | none =>
      simp only [hrh, deref_none, bind_err] at h
      exact Except.noConfusion h
  | some rh =>
      cases hct : s.currentTask with
      | none =>
          simp only [hrh, hct, deref_none, deref_some, bind_ok, bind_err] at h
          exact Except.noConfusion h
      | some ct =>
          simp only [hrh, hct, deref_some, bind_ok] at h
          by_cases hid : (s.heap rh).taskID ≠ (s.heap ct).taskID
          · rw [if_pos hid] at h
            simp only [setTCB_some, bind_ok, deref_some, pure_eq_ok, Except.ok.injEq] at h
            subst h
            split <;> exact ⟨rfl, rfl⟩
          · rw [if_neg hid] at h
            simp only [pure_eq_ok, bind_ok, Except.ok.injEq] at h
            subst h
            split <;> exact ⟨rfl, rfl⟩

/-- Exhaustive description of the completing runs of `YKQPost`: result 0
exactly on a full queue with the state untouched, result 1 exactly when
the message was written into the buffer and occupancy incremented. -/
theorem qpost_ok_cases (s : KState) (m : Nat) (fuel : Nat) (r : Int) (s2 : KState)
    (h : YKQPost s m fuel = Except.ok (r, s2)) :
    (r = 0 ∧ s2 = s ∧ s.queue.maxEntries ≤ s.queue.numEntries) ∨
    (r = 1 ∧ s2.queue.buffer = s.queue.buffer.set s.queue.nextSlot m ∧
      s2.queue.numEntries = (s.queue.numEntries + 1) % 65536 ∧
      ¬ s.queue.maxEntries ≤ s.queue.numEntries) := by
  by_cases hfull : s.queue.maxEntries ≤ s.queue.numEntries
  · rw [qpost_full s m fuel hfull] at h
    simp only [Except.ok.injEq, Prod.mk.injEq] at h
    exact Or.inl ⟨h.1.symm, h.2.symm, hfull⟩
  · by_cases hph : s.queue.pendHead = none
    · rw [qpost_room_nopend s m fuel hfull hph] at h
      simp only [Except.ok.injEq, Prod.mk.injEq] at h
      rcases h with ⟨hr, hs⟩
      subst hs
      exact Or.inr ⟨hr.symm, rfl, rfl, hfull⟩
    · unfold YKQPost YKEnterMutex YKExitMutex at h
      simp only [ge_iff_le, hfull, ne_eq, hph, not_false_eq_true, if_true, if_false,
        ite_true, ite_false] at h
      obtain ⟨⟨tmp, s4⟩, hrem, h⟩ := bind_ok_inv h
      obtain ⟨s5, hins, h⟩ := bind_ok_inv h
      have h5 : s5.queue = s4.queue := (insertReady_ok_frame _ _ _ _ hins).1
      have h4 := removePendQ_qdata _ _ _ hrem
      have hw : ∀ x : KState, (if s.intEnabled = true then
          { x with intEnabled := true } else x).queue = x.queue := by
        intro x; split <;> rfl
      by_cases hn : s5.nestLevel = 0
      · rw [if_pos hn] at h
        obtain ⟨s6, hs6, h⟩ := bind_ok_inv h
        rw [pure_eq_ok] at h
        simp only [Except.ok.injEq, Prod.mk.injEq] at h
        rcases h with ⟨hr, hs2⟩
        subst hs2
        have h6 : s6.queue = s5.queue := (scheduler_ok_frame _ _ hs6).1
        refine Or.inr ⟨hr.symm, ?_, ?_, hfull⟩
        · rw [hw, h6, h5]
          exact h4.1
        · rw [hw, h6, h5]
          exact h4.2.1
      · rw [if_neg hn] at h
        simp only [pure_eq_ok, bind_ok] at h
        simp only [Except.ok.injEq, Prod.mk.injEq] at h
        rcases h with ⟨hr, hs2⟩
        subst hs2
        refine Or.inr ⟨hr.symm, ?_, ?_, hfull⟩
        · rw [hw, h5]
          exact h4.1
        · rw [hw, h5]
          exact h4.2.1


theorem queueInv_of_queue_eq (s s2 : KState) (hq : s2.queue = s.queue)
    (h : queueInv s) : queueInv s2 := by
  unfold queueInv at *
  rw [hq]
  exact h

theorem setTCB_ok_frame (s : KState) (p : Option Nat) (f : TCB → TCB) (s2 : KState)
    (h : setTCB s p f = Except.ok s2) : s2.queue = s.queue ∧ s2.sem = s.sem := by
  cases p with
  | none => rw [setTCB_none] at h; exact Except.noConfusion h
  | some a =>
      rw [setTCB_some] at h
      simp only [Except.ok.injEq] at h
      subst h
      exact ⟨rfl, rfl⟩

theorem removeReady_ok_frame (s : KState) (t : Option Nat) (s2 : KState)
    (h : removeReady s t = Except.ok s2) : s2.queue = s.queue ∧ s2.sem = s.sem := by
  unfold removeReady at h
  cases t with
  | none => simp only [deref_none, bind_err] at h; exact Except.noConfusion h
  | some r =>
      simp only [deref_some, bind_ok] at h
      by_cases h0 : (s.heap r).taskID = 0
      · simp only [h0, if_true, ite_true, pure_eq_ok, Except.ok.injEq] at h
        subst h; exact ⟨rfl, rfl⟩
      · simp only [h0, if_false, ite_false] at h
        cases hrh : s.readyHead with
        | none =>
            simp only [hrh, pure_eq_ok, Except.ok.injEq] at h
            subst h; exact ⟨rfl, rfl⟩
        | some hd =>
            simp only [hrh] at h
            by_cases hc1 : (some hd : Option Nat) = some r ∧ s.readyTail = some r
            · simp only [hc1, true_and, and_true, if_true, ite_true, setTCB_some,
                bind_ok, pure_eq_ok, Except.ok.injEq] at h
              subst h; exact ⟨rfl, rfl⟩
            · simp only [hc1, if_false, ite_false] at h
              by_cases hc2 : (some hd : Option Nat) = some r
              · simp only [hc2, if_true, ite_true] at h
                cases hnx : (s.heap r).next with
                | none =>
                    simp only [hnx, setTCB_none, bind_err] at h
                    exact Except.noConfusion h
                | some nx =>
                    simp only [hnx, setTCB_some, bind_ok, pure_eq_ok,
                      Except.ok.injEq] at h
                    subst h; exact ⟨rfl, rfl⟩
              · simp only [hc2, if_false, ite_false] at h
                by_cases hc3 : s.readyTail = some r
                · simp only [hc3, if_true, ite_true] at h
                  cases hpv : (s.heap r).prev with
                  | none =>
                      simp only [hpv, setTCB_none, bind_err] at h
                      exact Except.noConfusion h
                  | some pv =>
                      simp only [hpv, setTCB_some, bind_ok, pure_eq_ok,
                        Except.ok.injEq] at h
                      subst h; exact ⟨rfl, rfl⟩
                · simp only [hc3, if_false, ite_false] at h
                  cases hnx : (s.heap r).next with
                  | none =>
                      simp only [hnx, setTCB_none, bind_err] at h
                      exact Except.noConfusion h
                  | some nx =>
                      cases hpv : (s.heap r).prev with
                      | none =>
                          simp only [hnx, hpv, setTCB_some, setTCB_none, bind_ok,
                            bind_err] at h
                          exact Except.noConfusion h
                      | some pv =>
                          simp only [hnx, hpv, setTCB_some, bind_ok, pure_eq_ok,
                            Except.ok.injEq] at h
                          subst h; exact ⟨rfl, rfl⟩

theorem insertDelayed_ok_frame (s : KState) (t : Option Nat) (fuel : Nat) (s2 : KState)
    (h : insertDelayed s t fuel = Except.ok s2) :
    s2.queue = s.queue ∧ s2.sem = s.sem := by
  unfold insertDelayed at h
  cases t with
  | none =>
      simp only [Except.ok.injEq] at h
      subst h; exact ⟨rfl, rfl⟩
  | some n =>
      by_cases h0 : (s.heap n).taskID = 0
      · simp only [h0, if_true, ite_true, Except.ok.injEq] at h
        subst h; exact ⟨rfl, rfl⟩
      · simp only [h0, if_false, ite_false] at h
        cases hdh : s.delayedHead with
        | none =>
            simp only [hdh] at h
            obtain ⟨sa, ha, h⟩ := bind_ok_inv h
            obtain ⟨sb, hb, h⟩ := bind_ok_inv h
            rw [pure_eq_ok] at h
            simp only [Except.ok.injEq] at h
            subst h
            have fa := setTCB_ok_frame _ _ _ _ ha
            have fb := setTCB_ok_frame _ _ _ _ hb
            exact ⟨by rw [fb.1, fa.1], by rw [fb.2, fa.2]⟩
        | some hd =>
            simp only [hdh] at h
            by_cases h1 : (s.heap n).delayCount < (s.heap hd).delayCount
            · simp only [h1, if_true, ite_true] at h
              obtain ⟨sa, ha, h⟩ := bind_ok_inv h
              obtain ⟨sb, hb, h⟩ := bind_ok_inv h
              obtain ⟨sc, hc, h⟩ := bind_ok_inv h
              obtain ⟨sd, hd2, h⟩ := bind_ok_inv h
              rw [pure_eq_ok] at h
              simp only [Except.ok.injEq] at h
              subst h
              have fa := setTCB_ok_frame _ _ _ _ ha
              have fb := setTCB_ok_frame _ _ _ _ hb
              have fc := setTCB_ok_frame _ _ _ _ hc
              have fd := setTCB_ok_frame _ _ _ _ hd2
              exact ⟨by rw [fd.1, fc.1, fb.1, fa.1], by rw [fd.2, fc.2, fb.2, fa.2]⟩
            · simp only [h1, if_false, ite_false] at h
              obtain ⟨⟨d, cur⟩, hw, h⟩ := bind_ok_inv h
              obtain ⟨sa, ha, h⟩ := bind_ok_inv h
              obtain ⟨sb, hb, h⟩ := bind_ok_inv h
              obtain ⟨sc, hc, h⟩ := bind_ok_inv h
              obtain ⟨sd, hd2, h⟩ := bind_ok_inv h
              obtain ⟨se, he, h⟩ := bind_ok_inv h
              obtain ⟨sf, hf, h⟩ := bind_ok_inv h
              rw [pure_eq_ok] at h
              simp only [Except.ok.injEq] at h
              subst h
              have fa := setTCB_ok_frame _ _ _ _ ha
              have fb := setTCB_ok_frame _ _ _ _ hb
              have fc := setTCB_ok_frame _ _ _ _ hc
              have fd := setTCB_ok_frame _ _ _ _ hd2
              have fe := setTCB_ok_frame _ _ _ _ he
              have ff := setTCB_ok_frame _ _ _ _ hf
              exact ⟨by rw [ff.1, fe.1, fd.1, fc.1, fb.1, fa.1],
                     by rw [ff.2, fe.2, fd.2, fc.2, fb.2, fa.2]⟩

theorem insertPendCore_ok_frame (s : KState) (ph t : Option Nat) (fuel : Nat)
    (msg : String) (ph2 : Option Nat) (s2 : KState)
    (h : insertPendCore s ph t fuel msg = Except.ok (ph2, s2)) :
    s2.queue = s.queue ∧ s2.sem = s.sem := by
  unfold insertPendCore at h
  cases t with
  | none =>
      simp only [Except.ok.injEq, Prod.mk.injEq] at h
      rcases h with ⟨-, h⟩
      subst h; exact ⟨rfl, rfl⟩
  | some n =>
      cases ph with
      | none =>
          obtain ⟨sa, ha, h⟩ := bind_ok_inv h
          obtain ⟨sb, hb, h⟩ := bind_ok_inv h
          rw [pure_eq_ok] at h
          simp only [Except.ok.injEq, Prod.mk.injEq] at h
          rcases h with ⟨-, h⟩
          subst h
          have fa := setTCB_ok_frame _ _ _ _ ha
          have fb := setTCB_ok_frame _ _ _ _ hb
          exact ⟨by rw [fb.1, fa.1], by rw [fb.2, fa.2]⟩
      | some hd =>
          by_cases h1 : (s.heap n).priority < (s.heap hd).priority
          · simp only [h1, if_true, ite_true] at h
            obtain ⟨sa, ha, h⟩ := bind_ok_inv h
            obtain ⟨sb, hb, h⟩ := bind_ok_inv h
            obtain ⟨sc, hc, h⟩ := bind_ok_inv h
            rw [pure_eq_ok] at h
            simp only [Except.ok.injEq, Prod.mk.injEq] at h
            rcases h with ⟨-, h⟩
            subst h
            have fa := setTCB_ok_frame _ _ _ _ ha
            have fb := setTCB_ok_frame _ _ _ _ hb
            have fc := setTCB_ok_frame _ _ _ _ hc
            exact ⟨by rw [fc.1, fb.1, fa.1], by rw [fc.2, fb.2, fa.2]⟩
          · simp only [h1, if_false, ite_false] at h
            obtain ⟨cur, hw, h⟩ := bind_ok_inv h
            by_cases h2 : (s.heap cur).next = none ∧ (s.heap n).priority > (s.heap cur).priority
            · simp only [h2, true_and, and_true, and_self, if_true, ite_true] at h
              obtain ⟨sa, ha, h⟩ := bind_ok_inv h
              obtain ⟨sb, hb, h⟩ := bind_ok_inv h
              obtain ⟨sc, hc, h⟩ := bind_ok_inv h
              rw [pure_eq_ok] at h
              simp only [Except.ok.injEq, Prod.mk.injEq] at h
              rcases h with ⟨-, h⟩
              subst h
              have fa := setTCB_ok_frame _ _ _ _ ha
              have fb := setTCB_ok_frame _ _ _ _ hb
              have fc := setTCB_ok_frame _ _ _ _ hc
              exact ⟨by rw [fc.1, fb.1, fa.1], by rw [fc.2, fb.2, fa.2]⟩
            · simp only [h2, if_false, ite_false] at h
              obtain ⟨sa, ha, h⟩ := bind_ok_inv h
              obtain ⟨sb, hb, h⟩ := bind_ok_inv h
              obtain ⟨sc, hc, h⟩ := bind_ok_inv h
              obtain ⟨sd, hd2, h⟩ := bind_ok_inv h
              rw [pure_eq_ok] at h
              simp only [Except.ok.injEq, Prod.mk.injEq] at h
              rcases h with ⟨-, h⟩
              subst h
              have fa := setTCB_ok_frame _ _ _ _ ha
              have fb := setTCB_ok_frame _ _ _ _ hb
              have fc := setTCB_ok_frame _ _ _ _ hc
              have fd := setTCB_ok_frame _ _ _ _ hd2
              exact ⟨by rw [fd.1, fc.1, fb.1, fa.1], by rw [fd.2, fc.2, fb.2, fa.2]⟩

theorem removePendCore_ok_frame (s : KState) (ph : Option Nat)
    (tmp ph2 : Option Nat) (s2 : KState)
    (h : removePendCore s ph = Except.ok (tmp, ph2, s2)) :
    s2.queue = s.queue ∧ s2.sem = s.sem := by
  unfold removePendCore at h
  cases ph with
  | none =>
      simp only [Except.ok.injEq, Prod.mk.injEq] at h
      rcases h with ⟨-, -, h⟩
      subst h; exact ⟨rfl, rfl⟩
  | some hd =>
      obtain ⟨sa, ha, h⟩ := bind_ok_inv h
      obtain ⟨sb, hb, h⟩ := bind_ok_inv h
      rw [pure_eq_ok] at h
      simp only [Except.ok.injEq, Prod.mk.injEq] at h
      rcases h with ⟨-, -, h⟩
      subst h
      have fa := setTCB_ok_frame _ _ _ _ ha
      have fb := setTCB_ok_frame _ _ _ _ hb
      exact ⟨by rw [fb.1, fa.1], by rw [fb.2, fa.2]⟩

theorem insertPendSem_ok_queue (s : KState) (t : Option Nat) (fuel : Nat) (s2 : KState)
    (h : insertPendSem s t fuel = Except.ok s2) : s2.queue = s.queue := by
  unfold insertPendSem at h
  obtain ⟨⟨ph, sa⟩, hcore, h⟩ := bind_ok_inv h
  simp only [pure_eq_ok, Except.ok.injEq] at h
  subst h
  exact (insertPendCore_ok_frame _ _ _ _ _ _ _ hcore).1

theorem insertPendQ_ok_qdata (s : KState) (t : Option Nat) (fuel : Nat) (s2 : KState)
    (h : insertPendQ s t fuel = Except.ok s2) :
    s2.queue.numEntries = s.queue.numEntries ∧
    s2.queue.maxEntries = s.queue.maxEntries := by
  unfold insertPendQ at h
  obtain ⟨⟨ph, sa⟩, hcore, h⟩ := bind_ok_inv h
  simp only [pure_eq_ok, Except.ok.injEq] at h
  subst h
  have hq := (insertPendCore_ok_frame _ _ _ _ _ _ _ hcore).1
  constructor
  · show sa.queue.numEntries = s.queue.numEntries
    rw [hq]
  · show sa.queue.maxEntries = s.queue.maxEntries
    rw [hq]

theorem removePendSem_ok_queue (s : KState) (tmp : Option Nat) (s2 : KState)
    (h : removePendSem s = Except.ok (tmp, s2)) : s2.queue = s.queue := by
  unfold removePendSem at h
  obtain ⟨⟨t2, ph, sa⟩, hcore, h⟩ := bind_ok_inv h
  simp only [pure_eq_ok, Except.ok.injEq, Prod.mk.injEq] at h
  rcases h with ⟨-, h⟩
  subst h
  exact (removePendCore_ok_frame _ _ _ _ _ hcore).1

theorem sempend_ok_queue (s : KState) (fuel : Nat) (s2 : KState)
    (h : YKSemPend s fuel = Except.ok s2) : s2.queue = s.queue := by
  unfold YKSemPend YKEnterMutex YKExitMutex at h
  by_cases hv : s.sem.value ≤ 0
  · simp only [hv, if_true, ite_true] at h
    obtain ⟨sa, hrr, h⟩ := bind_ok_inv h
    obtain ⟨sb, hip, h⟩ := bind_ok_inv h
    obtain ⟨sc, hsch, h⟩ := bind_ok_inv h
    simp only [pure_eq_ok, Except.ok.injEq] at h
    subst h
    have hq : sc.queue = s.queue := by
      simp only [(scheduler_ok_frame _ _ hsch).1, insertPendSem_ok_queue _ _ _ _ hip,
        (removeReady_ok_frame _ _ _ hrr).1]
    split <;> exact hq
  · simp only [hv, if_false, ite_false, pure_eq_ok, bind_ok, Except.ok.injEq] at h
    subst h
    split <;> rfl

theorem sempost_ok_queue (s : KState) (fuel : Nat) (s2 : KState)
    (h : YKSemPost s fuel = Except.ok s2) : s2.queue = s.queue := by
  unfold YKSemPost YKEnterMutex YKExitMutex at h
  by_cases hv : s.sem.value < 0
  · simp only [hv, if_true, ite_true] at h
    obtain ⟨⟨tmp, sa⟩, hrm, h⟩ := bind_ok_inv h
    obtain ⟨sb, hins, h⟩ := bind_ok_inv h
    have hqb : sb.queue = s.queue := by
      simp only [(insertReady_ok_frame _ _ _ _ hins).1,
        removePendSem_ok_queue _ _ _ hrm]
    by_cases hn : sb.nestLevel = 0
    · rw [if_pos hn] at h
      obtain ⟨sc, hsch, h⟩ := bind_ok_inv h
      simp only [pure_eq_ok, Except.ok.injEq] at h
      subst h
      have hq : sc.queue = s.queue := by rw [(scheduler_ok_frame _ _ hsch).1, hqb]
      split <;> exact hq
    · rw [if_neg hn] at h
      simp only [pure_eq_ok, bind_ok, Except.ok.injEq] at h
      subst h
      split <;> exact hqb
  · simp only [hv, if_false, ite_false, pure_eq_ok, bind_ok, Except.ok.injEq] at h
    subst h
    split <;> rfl

theorem delaytask_ok_queue (s : KState) (count fuel : Nat) (s2 : KState)
    (h : YKDelayTask s count fuel = Except.ok s2) : s2.queue = s.queue := by
  unfold YKDelayTask YKEnterMutex YKExitMutex at h
  by_cases hc : count ≤ 0
  · simp only [hc, if_true, ite_true] at h
    obtain ⟨sa, hrr, h⟩ := bind_ok_inv h
    obtain ⟨sb, hset, h⟩ := bind_ok_inv h
    obtain ⟨sc, hins, h⟩ := bind_ok_inv h
    have hq : sc.queue = s.queue := by
      simp only [(insertDelayed_ok_frame _ _ _ _ hins).1,
        (setTCB_ok_frame _ _ _ _ hset).1, (removeReady_ok_frame _ _ _ hrr).1,
        printString]
    rw [(scheduler_ok_frame _ _ h).1]
    split <;> exact hq
  · simp only [hc, if_false, ite_false] at h
    obtain ⟨sa, hrr, h⟩ := bind_ok_inv h
    obtain ⟨sb, hset, h⟩ := bind_ok_inv h
    obtain ⟨sc, hins, h⟩ := bind_ok_inv h
    have hq : sc.queue = s.queue := by
      simp only [(insertDelayed_ok_frame _ _ _ _ hins).1,
        (setTCB_ok_frame _ _ _ _ hset).1, (removeReady_ok_frame _ _ _ hrr).1]
    rw [(scheduler_ok_frame _ _ h).1]
    split <;> exact hq

theorem exitisr_ok_queue (s : KState) (s2 : KState)
    (h : YKExitISR s = Except.ok s2) : s2.queue = s.queue := by
  unfold YKExitISR at h
  by_cases hn : s.nestLevel - 1 = 0
  · simp only [hn, if_true, ite_true] at h
    exact (scheduler_ok_frame _ _ h).1
  · simp only [hn, if_false, ite_false, pure_eq_ok, Except.ok.injEq] at h
    subst h
    rfl

theorem sched_or_pure_ok_queue (s s2 : KState)
    (h : (if s.startedFlag = true then YKScheduler s else pure s) = Except.ok s2) :
    s2.queue = s.queue := by
  split at h
  · exact (scheduler_ok_frame _ _ h).1
  · simp only [pure_eq_ok, Except.ok.injEq] at h
    subst h
    rfl

theorem foldl_pokes_queue (ts : Int) : ∀ (l : List (Int × Int)) (s : KState),
    (l.foldl (fun s kv => { s with stackMem :=
        fun x => if x = ts - kv.1 then kv.2 else s.stackMem x }) s).queue = s.queue
  | [], _ => rfl
  | kv :: l, s => foldl_pokes_queue ts l
      { s with stackMem := fun x => if x = ts - kv.1 then kv.2 else s.stackMem x }

theorem newtask_ok_queue (s : KState) (taskCode taskStack : Int)
    (taskPriority : Nat) (fuel : Nat) (s2 : KState)
    (h : YKNewTask s taskCode taskStack taskPriority fuel = Except.ok s2) :
    s2.queue = s.queue := by
  unfold YKNewTask YKEnterMutex YKExitMutex allocateTCB at h
  by_cases hall : s.numTasksCreated ≥ 65
  · simp only [hall, if_true, ite_true] at h
    obtain ⟨sa, h1, h⟩ := bind_ok_inv h
    obtain ⟨sb, h2, h⟩ := bind_ok_inv h
    obtain ⟨sc, h3, h⟩ := bind_ok_inv h
    obtain ⟨sd, h4, h⟩ := bind_ok_inv h
    obtain ⟨se, h5, h⟩ := bind_ok_inv h
    obtain ⟨sf, h6, h⟩ := bind_ok_inv h
    obtain ⟨sg, h7, h⟩ := bind_ok_inv h
    obtain ⟨si, h8, h⟩ := bind_ok_inv h
    have hq := sched_or_pure_ok_queue _ _ h
    have hi := (insertReady_ok_frame _ _ _ _ h8).1
    have hfold := foldl_pokes_queue taskStack
      [(1, 512), (2, 0), (3, taskCode), (4, 1), (5, 2), (6, 3), (7, 4),
       (8, taskStack), (9, 0), (10, 0), (11, 0), (12, 0), (13, 0)] sg
    have hsi : si.queue = s.queue := by
      simp only [hi, hfold, (setTCB_ok_frame _ _ _ _ h7).1, (setTCB_ok_frame _ _ _ _ h6).1,
        (setTCB_ok_frame _ _ _ _ h5).1, (setTCB_ok_frame _ _ _ _ h4).1,
        (setTCB_ok_frame _ _ _ _ h3).1, (setTCB_ok_frame _ _ _ _ h2).1,
        (setTCB_ok_frame _ _ _ _ h1).1, printString]
    rw [hq]
    split <;> exact hsi
  · simp only [hall, if_false, ite_false] at h
    obtain ⟨sa, h1, h⟩ := bind_ok_inv h
    obtain ⟨sb, h2, h⟩ := bind_ok_inv h
    obtain ⟨sc, h3, h⟩ := bind_ok_inv h
    obtain ⟨sd, h4, h⟩ := bind_ok_inv h
    obtain ⟨se, h5, h⟩ := bind_ok_inv h
    obtain ⟨sf, h6, h⟩ := bind_ok_inv h
    obtain ⟨sg, h7, h⟩ := bind_ok_inv h
    obtain ⟨si, h8, h⟩ := bind_ok_inv h
    have hq := sched_or_pure_ok_queue _ _ h
    have hi := (insertReady_ok_frame _ _ _ _ h8).1
    have hfold := foldl_pokes_queue taskStack
      [(1, 512), (2, 0), (3, taskCode), (4, 1), (5, 2), (6, 3), (7, 4),
       (8, taskStack), (9, 0), (10, 0), (11, 0), (12, 0), (13, 0)] sg
    have hsi : si.queue = s.queue := by
      simp only [hi, hfold, (setTCB_ok_frame _ _ _ _ h7).1, (setTCB_ok_frame _ _ _ _ h6).1,
        (setTCB_ok_frame _ _ _ _ h5).1, (setTCB_ok_frame _ _ _ _ h4).1,
        (setTCB_ok_frame _ _ _ _ h3).1, (setTCB_ok_frame _ _ _ _ h2).1,
        (setTCB_ok_frame _ _ _ _ h1).1]
    rw [hq]
    split <;> exact hsi

theorem qpost_ok_max (s : KState) (m : Nat) (fuel : Nat) (r : Int) (s2 : KState)
    (h : YKQPost s m fuel = Except.ok (r, s2)) :
    s2.queue.maxEntries = s.queue.maxEntries := by
  by_cases hfull : s.queue.maxEntries ≤ s.queue.numEntries
  · rw [qpost_full s m fuel hfull] at h
    simp only [Except.ok.injEq, Prod.mk.injEq] at h
    rw [← h.2]
  · by_cases hph : s.queue.pendHead = none
    · rw [qpost_room_nopend s m fuel hfull hph] at h
      simp only [Except.ok.injEq, Prod.mk.injEq] at h
      rcases h with ⟨-, hs⟩
      subst hs
      rfl
    · unfold YKQPost YKEnterMutex YKExitMutex at h
      simp only [ge_iff_le, hfull, ne_eq, hph, not_false_eq_true, if_true, if_false,
        ite_true, ite_false] at h
      obtain ⟨⟨tmp, s4⟩, hrem, h⟩ := bind_ok_inv h
      obtain ⟨s5, hins, h⟩ := bind_ok_inv h
      have h5 : s5.queue = s4.queue := (insertReady_ok_frame _ _ _ _ hins).1
      have h4 := (removePendQ_qdata _ _ _ hrem).2.2.2.2
      have hw : ∀ x : KState, (if s.intEnabled = true then
          { x with intEnabled := true } else x).queue = x.queue := by
        intro x; split <;> rfl
      by_cases hn : s5.nestLevel = 0
      · rw [if_pos hn] at h
        obtain ⟨s6, hs6, h⟩ := bind_ok_inv h
        simp only [pure_eq_ok, Except.ok.injEq, Prod.mk.injEq] at h
        rcases h with ⟨-, hs2⟩
        subst hs2
        have h6 : s6.queue = s5.queue := (scheduler_ok_frame _ _ hs6).1
        rw [hw, h6, h5]
        exact h4
      · rw [if_neg hn] at h
        simp only [pure_eq_ok, bind_ok, Except.ok.injEq, Prod.mk.injEq] at h
        rcases h with ⟨-, hs2⟩
        subst hs2
        rw [hw, h5]
        exact h4

theorem qpost_single_pender_error (s : KState) (m : Nat) (fuel : Nat) (hd : Nat)
    (hroom : ¬ s.queue.maxEntries ≤ s.queue.numEntries)
    (hph : s.queue.pendHead = some hd) (hnx : (s.heap hd).next = none) :
    YKQPost s m fuel = Except.error nullPtrMsg := by
  unfold YKQPost YKEnterMutex removePendQ removePendCore
  simp [ge_iff_le, hroom, hph, hnx, setTCB_none, bind_err, pure_eq_ok]

/-! ## Claim theorems: general statements -/

/-- C3.  Queue FIFO round-trip: on any empty well-formed queue with no
pending task, `YKQPost` of `m` succeeds and an immediate `YKQPend`
returns that same `m`, leaving occupancy 0; and concretely, posting
m1, m2, m3 into an empty capacity-4 queue and pending three times returns
1,1,1 for the posts, then m1, m2, m3 in order, ending with occupancy 0. -/
theorem claim3_queue_fifo :
    (∀ (s : KState) (m : Nat) (fuel : Nat),
      s.queue.numEntries = 0 → s.queue.pendHead = none →
      0 < s.queue.maxEntries →
      s.queue.nextSlot = s.queue.nextMsg →
      s.queue.nextMsg < s.queue.maxEntries →
      s.queue.buffer.length = s.queue.maxEntries →
      postThenPend s m fuel = Except.ok (1, m, 0)) ∧
    c3run = Except.ok ((1, 1, 1), (11, 12, 13), 0) := by
  constructor
  · intro s m fuel hocc hpend hcap hslot hidx hlen
    have hroom : ¬ s.queue.maxEntries ≤ s.queue.numEntries := by
      rw [hocc]; exact Nat.not_le.mpr hcap
    have h1 := qpost_room_nopend s m fuel hroom hpend
    have hg : (s.queue.buffer.set s.queue.nextSlot m).getD s.queue.nextMsg 0 = m := by
      rw [hslot]; exact getD_set_self _ _ _ _ (by rw [hlen]; exact hidx)
    simp only [postThenPend, h1, bind_ok]
    rw [qpend_nonempty]
    · simp only [bind_ok, pure_eq_ok]
      rw [hg, hocc]
    · show ¬ (s.queue.numEntries + 1) % 65536 = 0
      rw [hocc]
      decide
  · rfl

/-- C3 witness: the general round-trip at a concrete queue and message. -/
theorem claim3_queue_fifo_witness :
    postThenPend c3s 5 20 = Except.ok (1, 5, 0) :=
  claim3_queue_fifo.1 c3s 5 20 rfl rfl (by decide) rfl (by decide) (by decide)

/-- C4.  Queue-full rejection with atomicity: on a full queue `YKQPost`
returns 0 with the whole kernel state unchanged; and every completing
`YKQPost` either returns 0 on a full queue leaving the state untouched, or
returns 1 having written the message at the tail slot and incremented
occupancy — so it returns 1 exactly when the message was placed. -/
theorem claim4_qpost_full_rejection (s : KState) (m : Nat) (fuel : Nat) :
    (s.queue.maxEntries ≤ s.queue.numEntries → YKQPost s m fuel = Except.ok (0, s)) ∧
    (∀ (r : Int) (s2 : KState), YKQPost s m fuel = Except.ok (r, s2) →
      (r = 0 ∧ s2 = s ∧ s.queue.maxEntries ≤ s.queue.numEntries) ∨
      (r = 1 ∧ s2.queue.buffer = s.queue.buffer.set s.queue.nextSlot m ∧
        s2.queue.numEntries = (s.queue.numEntries + 1) % 65536 ∧
        ¬ s.queue.maxEntries ≤ s.queue.numEntries)) :=
  ⟨qpost_full s m fuel, qpost_ok_cases s m fuel⟩

/-- C4 witness: the third post on a full capacity-2 queue returns 0 and
changes nothing. -/
theorem claim4_qpost_full_rejection_witness :
    YKQPost c4s 9 20 = Except.ok (0, c4s) :=
  (claim4_qpost_full_rejection c4s 9 20).1 (by decide)

/-- C5 amended.  `delay_task(0)` (the only way `count ≤ 0` holds for the
`unsigned` parameter) reports the error but does NOT skip the operation:
the current task is removed from the ready list, its delay count is set to
0, it is inserted into the delayed list, and the scheduler dispatches the
next ready task. -/
theorem claim5_amended (s : KState) (c i : Nat) (tc ti : TCB) (fuel : Nat)
    (hci : c ≠ i)
    (hcur : s.currentTask = some c)
    (hrh : s.readyHead = some c) (hrt : s.readyTail = some i)
    (hhc : s.heap c = tc) (hhi : s.heap i = ti)
    (hcid : tc.taskID ≠ 0) (hiid : ti.taskID = 0)
    (hcnext : tc.next = some i)
    (hdel : s.delayedHead = none) :
    Except.map (fun s2 => (s2.log, s2.delayedHead, (s2.heap c).delayCount,
        s2.readyHead, s2.currentTask, s2.ctxSwCount))
      (YKDelayTask s 0 fuel) =
    Except.ok (s.log ++ ["ERROR in YKDelayTask(): invalid delay count."],
        some c, 0, some i, some i, s.ctxSwCount + 1) := by
  cases hie : s.intEnabled <;>
  simp [YKDelayTask, YKEnterMutex, YKExitMutex, removeReady, insertDelayed, setTCB, deref,
    YKScheduler, YKDispatcher, printString, toInt16, hupd, hcur, hrh, hrt, hhc, hhi, hcnext,
    hdel, hie, hci, Ne.symm hci, hcid, Ne.symm hcid, hiid, bind_ok, pure_eq_ok, Except.map]

/-- C5 amended witness: the amended behaviour at the concrete C5 state. -/
theorem claim5_amended_witness :
    Except.map (fun s2 => (s2.log, s2.delayedHead, (s2.heap 1).delayCount,
        s2.readyHead, s2.currentTask, s2.ctxSwCount))
      (YKDelayTask c5s 0 20) =
    Except.ok (["ERROR in YKDelayTask(): invalid delay count."],
        some 1, 0, some 0, some 0, 1) :=
  claim5_amended c5s 1 0 (mkTCB 1 50 0 (some 0) none) (mkTCB 0 100 0 none (some 1)) 20
    (by decide) rfl rfl rfl rfl rfl (by decide) rfl rfl rfl

/-- C6 amended.  Inserting a task t whose priority equals that of an
existing non-head ready task b does not report any violation: `insertReady`
performs the ordinary priority-ordered insertion, placing t immediately
before b (the walk stops at the first node whose priority is not less than
t's), and the log is unchanged. -/
theorem claim6_amended (s : KState) (a b c t : Nat) (ta tb tc tt : TCB) (fuel : Nat)
    (hab : a ≠ b) (hat : a ≠ t) (hbt : b ≠ t)
    (hrh : s.readyHead = some a) (hrt : s.readyTail = some c)
    (hha : s.heap a = ta) (hhb : s.heap b = tb) (hhc : s.heap c = tc) (hht : s.heap t = tt)
    (hanext : ta.next = some b) (hbprev : tb.prev = some a)
    (hpa : ta.priority < tt.priority) (hpb : tb.priority = tt.priority)
    (hpc : tt.priority ≤ tc.priority) :
    Except.map (fun s2 => (s2.log, (s2.heap a).next, (s2.heap t).prev,
        (s2.heap t).next, (s2.heap b).prev, s2.readyHead))
      (insertReady s (some t) (fuel + 2)) =
    Except.ok (s.log, some t, some a, some b, some t, s.readyHead) := by
  have hfuel : fuel + 2 = Nat.succ (Nat.succ fuel) := rfl
  rw [hfuel]
  simp [insertReady, readyWalk, setTCB, deref, hupd, bind_ok, pure_eq_ok, Except.map,
    hrh, hrt, hha, hhb, hhc, hht, hanext, hbprev, hpa, hpb, Nat.lt_asymm hpa,
    Nat.not_lt.mpr hpc, hab, hat, hbt, Ne.symm hab, Ne.symm hat, Ne.symm hbt]

/-- C6 amended witness: the amended behaviour at the concrete C6 state. -/
theorem claim6_amended_witness :
    Except.map (fun s2 => (s2.log, (s2.heap 1).next, (s2.heap 3).prev,
        (s2.heap 3).next, (s2.heap 2).prev, s2.readyHead))
      (insertReady c6s (some 3) 20) =
    Except.ok ([], some 3, some 1, some 2, some 3, some 1) :=
  claim6_amended c6s 1 2 0 3 (mkTCB 1 3 0 (some 2) none) (mkTCB 2 5 0 (some 0) (some 1))
    (mkTCB 0 100 0 none (some 2)) (mkTCB 3 5 0 none none) 18
    (by decide) (by decide) (by decide) rfl rfl rfl rfl rfl rfl rfl rfl
    (by decide) rfl (by decide)

/-- C8 amended.  For every queue: `occupancy ≤ capacity` is preserved by
every completing kernel primitive call — in particular by every completing
`YKQPost`, waiters present or not.  The second conjunct of the invariant
(`occupancy > 0 → pending list empty`) is preserved by every completing
primitive call except a `YKQPost` that finds two or more waiting tasks
(which readies only the highest-priority waiter, the counterexample):
it is preserved by a completing post finding at most one waiter (a
non-full post onto a single-waiter queue never completes — it hits the
`removePendQ` null write), by every message-returning `YKQPend`, by the
suspension half of a blocking `YKQPend` (`insertPendQ` leaves occupancy
at 0), and by `YKSemPend`, `YKSemPost`, `YKDelayTask`, `YKNewTask`,
`YKScheduler`, `YKEnterISR` and `YKExitISR`, none of which touch the
queue. -/
theorem claim8_amended :
    (∀ (s : KState) (m fuel : Nat) (r : Int) (s2 : KState),
      s.queue.numEntries ≤ s.queue.maxEntries → s.queue.maxEntries < 65536 →
      YKQPost s m fuel = Except.ok (r, s2) →
      s2.queue.numEntries ≤ s2.queue.maxEntries) ∧
    (∀ (s : KState) (m fuel : Nat) (r : Int) (s2 : KState), queueInv s →
      s.queue.maxEntries < 65536 →
      (s.queue.pendHead = none ∨
        ∃ hd, s.queue.pendHead = some hd ∧ (s.heap hd).next = none) →
      YKQPost s m fuel = Except.ok (r, s2) → queueInv s2) ∧
    (∀ (s : KState) (fuel m : Nat) (s2 : KState), queueInv s →
      0 < s.queue.numEntries → s.queue.maxEntries < 65536 →
      YKQPend s fuel = Except.ok (m, s2) → queueInv s2) ∧
    (∀ (s : KState) (t : Option Nat) (fuel : Nat) (s2 : KState),
      s.queue.numEntries = 0 → insertPendQ s t fuel = Except.ok s2 →
      s2.queue.numEntries = 0 ∧ queueInv s2) ∧
    (∀ (s : KState) (fuel : Nat) (s2 : KState), queueInv s →
      YKSemPend s fuel = Except.ok s2 → queueInv s2) ∧
    (∀ (s : KState) (fuel : Nat) (s2 : KState), queueInv s →
      YKSemPost s fuel = Except.ok s2 → queueInv s2) ∧
    (∀ (s : KState) (count fuel : Nat) (s2 : KState), queueInv s →
      YKDelayTask s count fuel = Except.ok s2 → queueInv s2) ∧
    (∀ (s : KState) (taskCode taskStack : Int) (prio fuel : Nat) (s2 : KState),
      queueInv s → YKNewTask s taskCode taskStack prio fuel = Except.ok s2 →
      queueInv s2) ∧
    (∀ (s : KState) (s2 : KState), queueInv s →
      YKScheduler s = Except.ok s2 → queueInv s2) ∧
    (∀ s : KState, queueInv s → queueInv (YKEnterISR s)) ∧
    (∀ (s : KState) (s2 : KState), queueInv s →
      YKExitISR s = Except.ok s2 → queueInv s2) := by
  refine ⟨?_, ?_, ?_, ?_, ?_, ?_, ?_, ?_, ?_, ?_, ?_⟩
  · intro s m fuel r s2 hle hmax h
    have hmaxeq := qpost_ok_max s m fuel r s2 h
    rcases qpost_ok_cases s m fuel r s2 h with ⟨-, hs2, -⟩ | ⟨-, -, hocc, hfull⟩
    · subst hs2; exact hle
    · rw [hocc, hmaxeq]; omega
  · intro s m fuel r s2 hinv hmax hwait h
    rcases hwait with hph | ⟨hd, hph, hnx⟩
    · by_cases hfull : s.queue.maxEntries ≤ s.queue.numEntries
      · rw [qpost_full s m fuel hfull] at h
        simp only [Except.ok.injEq, Prod.mk.injEq] at h
        rcases h with ⟨-, hs⟩
        subst hs
        exact hinv
      · rw [qpost_room_nopend s m fuel hfull hph] at h
        simp only [Except.ok.injEq, Prod.mk.injEq] at h
        rcases h with ⟨-, hs⟩
        subst hs
        unfold queueInv
        constructor
        · show (s.queue.numEntries + 1) % 65536 ≤ s.queue.maxEntries
          omega
        · intro _
          exact hph
    · by_cases hfull : s.queue.maxEntries ≤ s.queue.numEntries
      · rw [qpost_full s m fuel hfull] at h
        simp only [Except.ok.injEq, Prod.mk.injEq] at h
        rcases h with ⟨-, hs⟩
        subst hs
        exact hinv
      · rw [qpost_single_pender_error s m fuel hd hfull hph hnx] at h
        exact Except.noConfusion h
  · intro s fuel m s2 hinv hocc hmax h
    rw [qpend_nonempty s fuel (by omega)] at h
    simp only [Except.ok.injEq, Prod.mk.injEq] at h
    rcases h with ⟨-, hs⟩
    subst hs
    rcases hinv with ⟨hle, himp⟩
    unfold queueInv
    constructor
    · show (s.queue.numEntries + 65535) % 65536 ≤ s.queue.maxEntries
      omega
    · intro _
      exact himp hocc
  · intro s t fuel s2 hocc h
    have hd := insertPendQ_ok_qdata s t fuel s2 h
    have h0 : s2.queue.numEntries = 0 := by rw [hd.1, hocc]
    refine ⟨h0, ?_, ?_⟩
    · rw [h0]; exact Nat.zero_le _
    · intro hp
      rw [h0] at hp
      exact absurd hp (by omega)
  · intro s fuel s2 hinv h
    exact queueInv_of_queue_eq s s2 (sempend_ok_queue s fuel s2 h) hinv
  · intro s fuel s2 hinv h
    exact queueInv_of_queue_eq s s2 (sempost_ok_queue s fuel s2 h) hinv
  · intro s count fuel s2 hinv h
    exact queueInv_of_queue_eq s s2 (delaytask_ok_queue s count fuel s2 h) hinv
  · intro s taskCode taskStack prio fuel s2 hinv h
    exact queueInv_of_queue_eq s s2 (newtask_ok_queue s taskCode taskStack prio fuel s2 h) hinv
  · intro s s2 hinv h
    exact queueInv_of_queue_eq s s2 (scheduler_ok_frame s s2 h).1 hinv
  · intro s hinv
    exact queueInv_of_queue_eq s (YKEnterISR s) rfl hinv
  · intro s s2 hinv h
    exact queueInv_of_queue_eq s s2 (exitisr_ok_queue s s2 h) hinv

/-- C8 amended witness: a completing post on an empty no-pender queue
preserves the invariant. -/
theorem claim8_amended_witness : queueInv c8wOut :=
  claim8_amended.2.1 c8ws 7 20 1 c8wOut (by decide) (by decide) (Or.inl rfl) rfl


/-- C10 counterexample.  With the dispatcher modelled by its full spec
contract, a scheduler call that switches (ready head id 0 ≠ current id 1)
does NOT modify only the context-switch counter and the current-task
handle: the outgoing task's saved stack pointer changes from 0 to 387
(= cpuSP − 13, recorded by the dispatcher's register save) and the machine
stack pointer is reloaded from the incoming task, so the claimed frame is
too strong. -/
theorem claim10_counterexample :
    (c10cs.heap 1).sp = 0 ∧ c10cs.cpuSP = 400 ∧
      c10obs = Except.ok (387, 13, some 0, 1) :=
  ⟨rfl, rfl, rfl⟩

/-- C10 amended.  Frame property of `YKScheduler` with the assembly
dispatcher modelled from its spec contract: when the ready-list head and
current task exist, the call completes; it returns the state entirely
unchanged when their task ids agree, and otherwise modifies exactly the
context-switch counter (incremented), the current-task handle (set to the
ready-list head), the outgoing task's saved stack pointer, the
saved-register words on the outgoing task's stack, and the live machine
stack pointer — the ready, delayed and pending list linkage, every other
TCB, the semaphore, the queue and the tick counter are untouched. -/
theorem claim10_amended (s : KState) (rh ct : Nat)
    (hrh : s.readyHead = some rh) (hct : s.currentTask = some ct) :
    ((s.heap rh).taskID = (s.heap ct).taskID → YKScheduler s = Except.ok s) ∧
    ((s.heap rh).taskID ≠ (s.heap ct).taskID → YKScheduler s = Except.ok
      { s with ctxSwCount := s.ctxSwCount + 1,
               currentTask := s.readyHead,
               heap := hupd s.heap ct { s.heap ct with sp := s.cpuSP - 13 },
               stackMem := fun x => if s.cpuSP - 13 ≤ x ∧ x < s.cpuSP then 0
                                    else s.stackMem x,
               cpuSP := (s.heap rh).sp + 13 }) := by
  constructor
  · intro h
    unfold YKScheduler YKEnterMutex YKExitMutex YKDispatcher
    simp only [hrh, hct, deref_some, bind_ok]
    cases hie : s.intEnabled <;>
    simp only [h, hie, ne_eq, not_true_eq_false, Bool.false_eq_true,
      if_true, if_false, ite_true, ite_false, pure_eq_ok, bind_ok] <;>
    first
      | rfl
      | rw [← hie, ← hrh, ← hct]
  · intro h
    have hne : rh ≠ ct := fun he => h (by rw [he])
    unfold YKScheduler YKEnterMutex YKExitMutex YKDispatcher
    simp only [hrh, hct, deref_some, bind_ok]
    cases hie : s.intEnabled <;>
    simp only [h, hie, ne_eq, not_false_eq_true, Bool.false_eq_true,
      if_true, if_false, ite_true, ite_false, pure_eq_ok, bind_ok,
      setTCB_some, deref_some, hupd_other _ _ _ _ hne]

/-- C10 amended witness: the scheduler on a state whose current task is
already the ready-list head returns the state unchanged. -/
theorem claim10_amended_witness : YKScheduler c10s = Except.ok c10s :=
  (claim10_amended c10s 1 1 rfl rfl).1 rfl
